import Mathlib

set_option maxHeartbeats 1000000

/-!
Verification of vevent.py: a shallow embedding of the module in Lean 4.

The module parses iCalendar text into a date-indexed collection of events
and answers temporal queries.  Python runtime behavior is modelled
explicitly:

- `datetime` values become the `DateTime` structure, compared
  lexicographically (as CPython compares naive datetimes).
- Dynamic attribute assignment (`setattr`) becomes `setField` on an
  `Event` record whose well-known fields can hold either a string or a
  datetime (`Value`), plus a string-keyed side table for other names.
- Python dicts become insertion-ordered association lists.
- Fallible operations return `Option` or `Except PyErr`; each `PyErr`
  constructor records which runtime exception site it models (Python 3
  semantics: ordering comparisons between `None`/`str` and `datetime`
  raise `TypeError`).
- `str.splitlines` is modelled on the common line terminators
  (LF, CRLF, CR); logical lines therefore never contain a newline, and
  the regex anchor at end of line is modelled as end of string.
-/

/-- A naive timestamp, as produced by `datetime.strptime(stamp, "%Y%m%dT%H%M%S")`. -/
structure DateTime where
  year : Nat
  month : Nat
  day : Nat
  hour : Nat
  minute : Nat
  second : Nat
deriving DecidableEq, Repr

/-- CPython compares naive datetimes lexicographically by component. -/
def dtLt (a b : DateTime) : Bool :=
  if a.year ≠ b.year then decide (a.year < b.year)
  else if a.month ≠ b.month then decide (a.month < b.month)
  else if a.day ≠ b.day then decide (a.day < b.day)
  else if a.hour ≠ b.hour then decide (a.hour < b.hour)
  else if a.minute ≠ b.minute then decide (a.minute < b.minute)
  else decide (a.second < b.second)

/-- A value stored in an event attribute: either a Python `str` or a `datetime`. -/
inductive Value where
  | str : String → Value
  | dt : DateTime → Value
deriving DecidableEq, Repr

/-- One VEVENT record (`Calendar.Event`): fixed fields initialized in
`__init__`, plus a side table for dynamically assigned attribute names. -/
structure Event where
  summary : Value
  description : Value
  location : Value
  start : Option Value
  end_ : Option Value
  extra : List (String × Value)
deriving DecidableEq, Repr

/-- `Calendar.Event()`: summary, description, location default to the empty
string; start and end default to `None`. -/
def emptyEvent : Event :=
  { summary := Value.str ("")
    description := Value.str ("")
    location := Value.str ("")
    start := none
    end_ := none
    extra := [] }

/-- Runtime exception sites of the Python code. -/
inductive PyErr where
  /-- `event.start` where `event` is `None` (stray `END:VEVENT`). -/
  | attrNoneStart : PyErr
  /-- `event.start.year` where `start` is `None` or a `str`. -/
  | attrStartYear : PyErr
  /-- `matches.group(...)` where `re.search` returned `None`. -/
  | attrGroupNone : PyErr
  /-- `datetime.strptime` rejected the digits (`ValueError`). -/
  | valueError : PyErr
  /-- ordering comparison between `None`/`str` and `datetime` (`TypeError`). -/
  | typeErrorCmp : PyErr
  /-- `lines[i][0]` on an empty string in `__unwrap` (`IndexError`). -/
  | indexError : PyErr
deriving DecidableEq, Repr

/-- `setattr(event, name, value)` for the lowercase names the parser produces. -/
def setField (e : Event) (name : String) (v : Value) : Event :=
  if name = "summary" then { e with summary := v }
  else if name = "description" then { e with description := v }
  else if name = "location" then { e with location := v }
  else if name = "start" then { e with start := some v }
  else if name = "end" then { e with end_ := some v }
  else { e with extra := setExtra e.extra name v }
where
  setExtra : List (String × Value) → String → Value → List (String × Value)
    | [], n, v => [(n, v)]
    | (n₀, v₀) :: rest, n, v =>
      if n₀ = n then (n₀, v) :: rest else (n₀, v₀) :: setExtra rest n v

/-- `str.splitlines`, modelled for the LF, CRLF and CR terminators; the
accumulator holds the current line reversed. -/
def splitlinesAux : List Char → List Char → List String
  | [], acc => if acc.isEmpty then [] else [String.mk acc.reverse]
  | '\n' :: rest, acc => String.mk acc.reverse :: splitlinesAux rest []
  | '\r' :: '\n' :: rest, acc => String.mk acc.reverse :: splitlinesAux rest []
  | '\r' :: rest, acc => String.mk acc.reverse :: splitlinesAux rest []
  | c :: rest, acc => splitlinesAux rest (c :: acc)

/-- `content.splitlines()`. -/
def splitlines (s : String) : List String := splitlinesAux s.data []

/-- One left-to-right pass of `s.replace("\\" ++ [a], [b])`: Python `str.replace`
replaces non-overlapping occurrences scanning from the left. -/
def replaceEsc (a b : Char) : List Char → List Char
  | [] => []
  | [c] => [c]
  | c :: c₂ :: rest =>
    if c = '\\' ∧ c₂ = a then b :: replaceEsc a b rest
    else c :: replaceEsc a b (c₂ :: rest)

/-- `Calendar.__unformat`: replace literal backslash-n by a newline, then
literal backslash-comma by a comma (the two dict entries, in order; the
replacements are independent, so the order does not matter). -/
def unformat (s : String) : String :=
  String.mk (replaceEsc (',') (',') (replaceEsc ('n') ('\n') s.data))

/-- The processing of indices `1 .. len-1` of `Calendar.__unwrap`, from the
end backward.  Returns `(carry, kept)`: `carry` is the text accumulated from
a leading chain of continuation lines (to be appended to the line on the
left), `kept` the surviving lines.  When an examined line (its original text
plus anything merged into it from the right) is empty, `lines[i][0]` raises
`IndexError`, modelled as `none`. -/
def unwrapAux : List String → Option (String × List String)
  | [] => some (("", []))
  | x :: xs =>
    match unwrapAux xs with
    | none => none
    | some (s, ys) =>
      match (x ++ s).data with
      | [] => none
      | c :: rest =>
        if c = ' ' then some ((String.mk rest, ys))
        else some (("", (x ++ s) :: ys))

/-- `Calendar.__unwrap`: split into physical lines, merge space-led
continuation lines into their predecessor from the end backward, rejoin
with a newline. -/
def unwrap (content : String) : Option String :=
  match splitlines content with
  | [] => some ("")
  | l₀ :: rest =>
    match unwrapAux rest with
    | none => none
    | some (s, ys) => some (String.intercalate (String.mk ['\n']) ((l₀ ++ s) :: ys))

/-- Character class `[A-Z\-]` of the property-name regexes. -/
def isNameChar (c : Char) : Bool := decide (('A' ≤ c ∧ c ≤ 'Z') ∨ c = '-')

/-- Character class `[0-9]`. -/
def isDigitChar (c : Char) : Bool := decide ('0' ≤ c ∧ c ≤ '9')

/-- The bare timestamp shape `[0-9]{8}T[0-9]{6}` (exactly 15 characters). -/
def isStamp (cs : List Char) : Bool :=
  match cs with
  | [a, b, c, d, e, f, g, h, t, i, j, k, l, m, n] =>
    ([a, b, c, d, e, f, g, h].all isDigitChar) && (t = 'T') &&
      ([i, j, k, l, m, n].all isDigitChar)
  | _ => false

/-- Common end-anchored decomposition of both timestamp regexes
(`...:([0-9]{8}T[0-9]{6})Z?$`): strip one optional trailing Z, require the
last 15 characters to be a stamp preceded by a colon, and return the text
before that colon together with the stamp. -/
def tsSplit (cs : List Char) : Option (List Char × List Char) :=
  let body := if cs.getLast? = some 'Z' then cs.dropLast else cs
  let n := body.length
  if n ≥ 17 ∧ body.get? (n - 16) = some ':' ∧ isStamp (body.drop (n - 15)) then
    some ((body.take (n - 16), body.drop (n - 15)))
  else none

/-- The guard `re.match("^.+:([0-9]{8}T[0-9]{6})Z?$", line)`: any nonempty
prefix (the dot does not match a newline) before the colon and stamp. -/
def matchesTS (line : String) : Bool :=
  match tsSplit line.data with
  | some (p, _) => (!p.isEmpty) && p.all (fun c => decide (c ≠ '\n'))
  | none => false

/-- Does `p` match `(?:DT)?([A-Z\-]+)(?:;[^:]+)?`, consuming all of `p`?
The name part is the maximal `[A-Z\-]` prefix; an optional parameter part is
a semicolon followed by one or more non-colon characters. -/
def tsPrefixOK (p : List Char) : Bool :=
  let a := p.takeWhile isNameChar
  let b := p.drop a.length
  (!a.isEmpty) &&
    (b.isEmpty ||
      ((b.head? = some ';') && (!b.tail.isEmpty) &&
        b.tail.all (fun c => decide (c ≠ ':'))))

/-- Greedy `(?:DT)?` before `([A-Z\-]+)`: the DT prefix is stripped exactly
when the name has it and at least one character follows (otherwise the
engine backtracks and the group keeps the whole name). -/
def stripDT (a : List Char) : List Char :=
  match a with
  | 'D' :: 'T' :: c :: rest => c :: rest
  | _ => a

/-- `re.search("^(?:DT)?([A-Z\-]+)(?:;[^:]+)?:([0-9]{8}T[0-9]{6})Z?$", line)`,
returning `(group(1).lower(), group(2))` when it matches. -/
def searchTS (line : String) : Option (String × String) :=
  match tsSplit line.data with
  | none => none
  | some (p, stamp) =>
    if tsPrefixOK p then
      some ((String.mk ((stripDT (p.takeWhile isNameChar)).map Char.toLower),
             String.mk stamp))
    else none

/-- Decomposition shared by `re.match("^[A-Z\-]+(;[^:]+)?:.+$", line)` and
`re.search("^([A-Z\-]+)(?:;[^:]+)?:(.+)$", line)` (the two patterns differ
only in capture groups): maximal `[A-Z\-]` name, optional semicolon-led
colon-free parameters, a colon, then a nonempty newline-free value. -/
def textSplit (cs : List Char) : Option (List Char × List Char) :=
  let a := cs.takeWhile isNameChar
  let b := cs.drop a.length
  if a.isEmpty then none
  else
    match b with
    | ':' :: v =>
      if (!v.isEmpty) && v.all (fun c => decide (c ≠ '\n')) then some ((a, v)) else none
    | ';' :: more =>
      let g := more.takeWhile (fun c => decide (c ≠ ':'))
      let r := more.drop g.length
      if g.isEmpty then none
      else
        match r with
        | ':' :: v =>
          if (!v.isEmpty) && v.all (fun c => decide (c ≠ '\n')) then some ((a, v)) else none
        | _ => none
    | _ => none

/-- The text-property guard regex. -/
def matchesText (line : String) : Bool := (textSplit line.data).isSome

/-- The text-property search regex, returning `(group(1).lower(), group(2))`. -/
def searchText (line : String) : Option (String × String) :=
  match textSplit line.data with
  | some (a, v) => some ((String.mk (a.map Char.toLower), String.mk v))
  | none => none

/-- Whether a Gregorian year is a leap year (as `datetime.date` checks). -/
def isLeap (y : Nat) : Bool := decide (y % 4 = 0 ∧ (y % 100 ≠ 0 ∨ y % 400 = 0))

/-- Days in a month of the proleptic Gregorian calendar. -/
def daysInMonth (y m : Nat) : Nat :=
  if m = 2 then (if isLeap y then 29 else 28)
  else if m = 4 ∨ m = 6 ∨ m = 9 ∨ m = 11 then 30
  else 31

/-- Numeric value of a digit character. -/
def digitVal (c : Char) : Nat := c.toNat - 48

/-- Value of a list of digit characters, most significant first. -/
def natOfDigits (cs : List Char) : Nat :=
  cs.foldl (fun acc c => acc * 10 + digitVal c) 0

/-- `Calendar.__stamp_to_datetime`: `datetime.strptime(stamp, "%Y%m%dT%H%M%S")`
on a 15-character stamp.  `strptime` (format regex plus the `datetime`
constructor) accepts exactly: a year 0001-9999, a month 01-12, a valid day
of that month, an hour 00-23, a minute 00-59 and a second 00-59; anything
else raises `ValueError`, modelled as `none`. -/
def stamp_to_datetime (s : String) : Option DateTime :=
  match s.data with
  | [y₁, y₂, y₃, y₄, m₁, m₂, d₁, d₂, _t, h₁, h₂, mi₁, mi₂, s₁, s₂] =>
    let y := natOfDigits [y₁, y₂, y₃, y₄]
    let mo := natOfDigits [m₁, m₂]
    let da := natOfDigits [d₁, d₂]
    let h := natOfDigits [h₁, h₂]
    let mi := natOfDigits [mi₁, mi₂]
    let se := natOfDigits [s₁, s₂]
    if 1 ≤ y ∧ 1 ≤ mo ∧ mo ≤ 12 ∧ 1 ≤ da ∧ da ≤ daysInMonth y mo ∧
        h ≤ 23 ∧ mi ≤ 59 ∧ se ≤ 59 then
      some ({ year := y, month := mo, day := da, hour := h, minute := mi, second := se })
    else none
  | _ => none

/-- The nested dictionary `Calendar.events`: year, then month, then day,
each level an insertion-ordered association list as a Python dict. -/
abbrev DayMap := List (Nat × List Event)
abbrev MonthMap := List (Nat × DayMap)
abbrev Index := List (Nat × MonthMap)

/-- Update key `k` in an insertion-ordered dict: create it with default `d`
at the end if absent (as `dict[k] = {}` does), then apply `f` in place. -/
def updAL {α : Type} (k : Nat) (d : α) (f : α → α) : List (Nat × α) → List (Nat × α)
  | [] => [(k, f d)]
  | (k₀, v) :: rest =>
    if k₀ = k then (k₀, f v) :: rest else (k₀, v) :: updAL k d f rest

/-- Dict lookup. -/
def lookupAL {α : Type} (k : Nat) : List (Nat × α) → Option α
  | [] => none
  | (k₀, v) :: rest => if k₀ = k then some v else lookupAL k rest

/-- The `END:VEVENT` insertion: create the year, month and day levels on
demand and append the event at the end of the day bucket. -/
def insertEvent (idx : Index) (d : DateTime) (e : Event) : Index :=
  updAL d.year []
    (fun mm => updAL d.month []
      (fun dm => updAL d.day [] (fun l => l ++ [e]) dm) mm) idx

/-- `Calendar.get_events_on_day`: nested membership checks, defaulting to
the empty list; only the year, month, day components of the date are used. -/
def get_events_on_day (idx : Index) (date : DateTime) : List Event :=
  match lookupAL date.year idx with
  | none => []
  | some mm =>
    match lookupAL date.month mm with
    | none => []
    | some dm =>
      match lookupAL date.day dm with
      | none => []
      | some l => l

/-- The loop body of `Calendar.__parse` for one logical line.  The state is
the current event in progress (or `None`) together with the index built so
far.  Exceptions abort the whole parse. -/
def parseLine (st : Option Event × Index) (line : String) :
    Except PyErr (Option Event × Index) :=
  if line = "BEGIN:VEVENT" then Except.ok ((some emptyEvent, st.2))
  else if line = "END:VEVENT" then
    match st.1 with
    | none => Except.error PyErr.attrNoneStart
    | some ev =>
      match ev.start with
      | some (Value.dt d) => Except.ok ((none, insertEvent st.2 d ev))
      | _ => Except.error PyErr.attrStartYear
  else
    match st.1 with
    | none => Except.ok st
    | some ev =>
      if matchesTS line then
        match searchTS line with
        | none => Except.error PyErr.attrGroupNone
        | some (nm, stamp) =>
          match stamp_to_datetime stamp with
          | none => Except.error PyErr.valueError
          | some d => Except.ok ((some (setField ev nm (Value.dt d)), st.2))
      else if matchesText line then
        match searchText line with
        | none => Except.error PyErr.attrGroupNone
        | some (nm, v) =>
          Except.ok ((some (setField ev nm (Value.str (unformat v))), st.2))
      else Except.ok st

/-- `Calendar.__parse` over already-unfolded text: start from an empty index
with no event in progress, fold the loop body over the logical lines, and
return the index (a trailing unterminated event is discarded). -/
def parse (content : String) : Except PyErr Index :=
  (List.foldlM parseLine ((none, [])) (splitlines content)).map (fun st => st.2)

/-- The `Calendar` constructor: unfold, then parse. -/
def calendar (contents : String) : Except PyErr Index :=
  match unwrap contents with
  | none => Except.error PyErr.indexError
  | some u => parse u

/-- `event.start < date` under Python 3: defined only when `start` holds a
datetime, a `TypeError` otherwise. -/
def valLtDt (v : Option Value) (d : DateTime) : Except PyErr Bool :=
  match v with
  | some (Value.dt a) => Except.ok (dtLt a d)
  | _ => Except.error PyErr.typeErrorCmp

/-- `v > date` under Python 3 (used for both `event.start` and `event.end`). -/
def valGtDt (v : Option Value) (d : DateTime) : Except PyErr Bool :=
  match v with
  | some (Value.dt a) => Except.ok (dtLt d a)
  | _ => Except.error PyErr.typeErrorCmp

/-- The loop of `Calendar.get_current_event`: first event with
`start < date and end > date`; `and` short-circuits. -/
def findCurrent (now : DateTime) : List Event → Except PyErr (Option Event)
  | [] => Except.ok none
  | e :: rest =>
    match valLtDt e.start now with
    | Except.error err => Except.error err
    | Except.ok b₁ =>
      if b₁ then
        match valGtDt e.end_ now with
        | Except.error err => Except.error err
        | Except.ok b₂ => if b₂ then Except.ok (some e) else findCurrent now rest
      else findCurrent now rest

/-- The loop of `Calendar.get_next_event`: first event of the reversed list
with `start > date and end > date`. -/
def findNext (now : DateTime) : List Event → Except PyErr (Option Event)
  | [] => Except.ok none
  | e :: rest =>
    match valGtDt e.start now with
    | Except.error err => Except.error err
    | Except.ok b₁ =>
      if b₁ then
        match valGtDt e.end_ now with
        | Except.error err => Except.error err
        | Except.ok b₂ => if b₂ then Except.ok (some e) else findNext now rest
      else findNext now rest

/-- `Calendar.get_current_event`, with `datetime.today()` made an explicit
parameter. -/
def get_current_event (idx : Index) (now : DateTime) : Except PyErr (Option Event) :=
  findCurrent now (get_events_on_day idx now)

/-- `Calendar.get_next_event`, with `datetime.today()` made an explicit
parameter; the day's bucket is scanned reversed (`[::-1]`). -/
def get_next_event (idx : Index) (now : DateTime) : Except PyErr (Option Event) :=
  findNext now (get_events_on_day idx now).reverse

/-- `event.start < now` as a boolean selection condition (false when `start`
does not hold a datetime). -/
def startLtB (e : Event) (now : DateTime) : Bool :=
  match e.start with
  | some (Value.dt a) => dtLt a now
  | _ => false

/-- `event.start > now` as a boolean selection condition. -/
def startGtB (e : Event) (now : DateTime) : Bool :=
  match e.start with
  | some (Value.dt a) => dtLt now a
  | _ => false

/-- `event.end > now` as a boolean selection condition. -/
def endGtB (e : Event) (now : DateTime) : Bool :=
  match e.end_ with
  | some (Value.dt b) => dtLt now b
  | _ => false

/-- The selection condition of `get_current_event`: `start < now < end`. -/
def currentMatch (e : Event) (now : DateTime) : Bool := startLtB e now && endGtB e now

/-- The selection condition of `get_next_event`: `start > now` and `end > now`. -/
def nextMatch (e : Event) (now : DateTime) : Bool := startGtB e now && endGtB e now

/-- A line that is non-empty and does not begin with a space (the only
continuation marker `__unwrap` recognizes). -/
def plainLine (l : String) : Bool :=
  match l.data with
  | [] => false
  | c :: _ => decide (c ≠ ' ')

/-- A line beginning with a space or a tab (a continuation line in the sense
of RFC 5545 folding). -/
def continuationLine (l : String) : Bool :=
  match l.data with
  | [] => false
  | c :: _ => (c = ' ') || (c = '\t')

/-- The day bucket under keys `(y, m, d)` (the time fields of the probe date
are irrelevant to `get_events_on_day`). -/
def eventsAt (idx : Index) (y m d : Nat) : List Event :=
  get_events_on_day idx
    ({ year := y, month := m, day := d, hour := 0, minute := 0, second := 0 })

/-- The event carries a datetime `start` whose components are exactly the
bucket keys. -/
def startOK (e : Event) (y m d : Nat) : Prop :=
  ∃ a, e.start = some (Value.dt a) ∧ y = a.year ∧ m = a.month ∧ d = a.day

/-- The bucketing invariant of the index. -/
def IndexInv (idx : Index) : Prop :=
  ∀ y m d e, e ∈ eventsAt idx y m d → startOK e y m d

/-- 2017-01-18 at hour `h`. -/
def dtAt (h : Nat) : DateTime :=
  { year := 2017, month := 1, day := 18, hour := h, minute := 0, second := 0 }

/-- An event with only a start timestamp, at hour `h` of 2017-01-18. -/
def evStart (h : Nat) : Event := { emptyEvent with start := some (Value.dt (dtAt h)) }

/-- An event with start hour `h` and end hour `k` on 2017-01-18. -/
def evStartEnd (h k : Nat) : Event :=
  { emptyEvent with start := some (Value.dt (dtAt h)), end_ := some (Value.dt (dtAt k)) }

def txtSingle9 : String := "BEGIN:VEVENT\nDTSTART:20170118T090000\nEND:VEVENT"

def idxSingle9 : Index := [(2017, [(1, [(18, [evStart 9])])])]

def txtSingle8 : String := "BEGIN:VEVENT\nDTSTART:20170118T080000\nEND:VEVENT"

def idxSingle8 : Index := [(2017, [(1, [(18, [evStart 8])])])]

/-- Event A at hours 9-10 on 2017-01-18, with summary A. -/
def evA : Event :=
  { emptyEvent with
    summary := Value.str ("A")
    start := some (Value.dt (dtAt 9))
    end_ := some (Value.dt (dtAt 10)) }

/-- Event B at hours 11-12 on 2017-01-18, with summary B. -/
def evB : Event :=
  { emptyEvent with
    summary := Value.str ("B")
    start := some (Value.dt (dtAt 11))
    end_ := some (Value.dt (dtAt 12)) }

/-- Two events on the same day in textual order A then B. -/
def txtAB : String :=
  "BEGIN:VEVENT\nDTSTART:20170118T090000\nDTEND:20170118T100000\nSUMMARY:A\nEND:VEVENT\nBEGIN:VEVENT\nDTSTART:20170118T110000\nDTEND:20170118T120000\nSUMMARY:B\nEND:VEVENT"

def idxAB : Index := [(2017, [(1, [(18, [evA, evB])])])]

def txt911 : String :=
  "BEGIN:VEVENT\nDTSTART:20170118T090000\nDTEND:20170118T110000\nEND:VEVENT"

def idx911 : Index := [(2017, [(1, [(18, [evStartEnd 9 11])])])]

/-- An end-less event at 8, then an event at 9-11, on the same day. -/
def txtC4 : String :=
  "BEGIN:VEVENT\nDTSTART:20170118T080000\nEND:VEVENT\nBEGIN:VEVENT\nDTSTART:20170118T090000\nDTEND:20170118T110000\nEND:VEVENT"

def idxC4 : Index := [(2017, [(1, [(18, [evStart 8, evStartEnd 9 11])])])]

def txtMissingStart : String := "BEGIN:VEVENT\nEND:VEVENT"

/-- An event block containing a line whose value part matches the timestamp
pattern but whose property name is lowercase, with no closing boundary. -/
def txtBadName : String := "BEGIN:VEVENT\nab:20170118T090000"

def txtStray : String := "END:VEVENT"

def txtTab : String := "A\n\tB"

def txtEmptyMid : String := "A\n\nB"

/-- An empty second line immediately followed by a continuation line. -/
def txtRescue : String := "A\n\n X"

def txtTwoEmpty : String := "A\n\n"

theorem lookupAL_updAL {α : Type} (k k' : Nat) (d : α) (f : α → α) (l : List (Nat × α)) :
    lookupAL k (updAL k' d f l) =
      if k = k' then some (f ((lookupAL k' l).getD d)) else lookupAL k l := by
  induction l with
  | nil =>
    by_cases h : k = k'
    · subst h; simp [updAL, lookupAL]
    · simp [updAL, lookupAL, h, Ne.symm h]
  | cons p rest ih =>
    obtain ⟨k₀, v⟩ := p
    by_cases h0 : k₀ = k'
    · subst h0
      by_cases h : k = k₀
      · subst h; simp [updAL, lookupAL]
      · simp [updAL, lookupAL, h, Ne.symm h]
    · by_cases h1 : k₀ = k
      · subst h1
        by_cases h2 : k₀ = k'
        · exact absurd h2 h0
        · simp [updAL, lookupAL, h0, h2]
      · by_cases h2 : k = k'
        · subst h2; simp [updAL, lookupAL, h0, h1, ih]
        · simp [updAL, lookupAL, h0, h1, h2, ih]

theorem eventsAt_eq (idx : Index) (y m dd : Nat) :
    eventsAt idx y m dd =
      (lookupAL dd ((lookupAL m ((lookupAL y idx).getD [])).getD [])).getD [] := by
  simp only [eventsAt, get_events_on_day]
  cases hy : lookupAL y idx with
  | none => simp [hy, lookupAL]
  | some mm =>
    simp only [hy, Option.getD_some]
    cases hm : lookupAL m mm with
    | none => simp [hm, lookupAL]
    | some dm =>
      simp only [hm, Option.getD_some]
      cases hd : lookupAL dd dm with
      | none => simp [hd]
      | some l => simp [hd]

theorem eventsAt_insertEvent (idx : Index) (d : DateTime) (ev : Event) (y m dd : Nat) :
    eventsAt (insertEvent idx d ev) y m dd =
      if y = d.year ∧ m = d.month ∧ dd = d.day then eventsAt idx y m dd ++ [ev]
      else eventsAt idx y m dd := by
  rw [eventsAt_eq, eventsAt_eq, insertEvent, lookupAL_updAL]
  by_cases h1 : y = d.year
  · subst h1
    rw [if_pos rfl]
    simp only [Option.getD_some]
    rw [lookupAL_updAL]
    by_cases h2 : m = d.month
    · subst h2
      rw [if_pos rfl]
      simp only [Option.getD_some]
      rw [lookupAL_updAL]
      by_cases h3 : dd = d.day
      · subst h3
        rw [if_pos rfl]
        simp
      · rw [if_neg h3, if_neg (by simp [h3])]
    · rw [if_neg h2, if_neg (by simp [h2])]
  · rw [if_neg h1, if_neg (by simp [h1])]

theorem indexInv_nil : IndexInv [] := by
  intro y m d e hmem
  simp [eventsAt, get_events_on_day, lookupAL] at hmem

theorem parseLine_inv (st st' : Option Event × Index) (line : String)
    (h : parseLine st line = Except.ok st') (hinv : IndexInv st.2) : IndexInv st'.2 := by
  unfold parseLine at h
  split at h
  · cases h; exact hinv
  · split at h
    · -- the END:VEVENT branch
      split at h
      · exact Except.noConfusion h
      · split at h
        · -- insertion with a datetime start
          rename_i ev _ d heq
          cases h
          intro y m dd e hmem
          rw [eventsAt_insertEvent] at hmem
          split at hmem
          · rename_i hif
            rcases List.mem_append.mp hmem with hold | hnew
            · exact hinv y m dd e hold
            · rcases List.mem_singleton.mp hnew with rfl
              exact ⟨d, heq, hif.1, hif.2.1, hif.2.2⟩
          · exact hinv y m dd e hmem
        · exact Except.noConfusion h
    · -- property lines and ignored lines
      split at h
      · cases h; exact hinv
      · split at h
        · split at h
          · exact Except.noConfusion h
          · split at h
            · exact Except.noConfusion h
            · cases h; exact hinv
        · split at h
          · split at h
            · exact Except.noConfusion h
            · cases h; exact hinv
          · cases h; exact hinv

theorem foldl_parse_inv (ls : List String) :
    ∀ st st', List.foldlM parseLine st ls = Except.ok st' →
      IndexInv st.2 → IndexInv st'.2 := by
  induction ls with
  | nil =>
    intro st st' h hinv
    rw [List.foldlM_nil] at h
    have h2 : Except.ok st = Except.ok st' := h
    injection h2 with h3
    subst h3
    exact hinv
  | cons a ls ih =>
    intro st st' h hinv
    rw [List.foldlM_cons] at h
    cases hstep : parseLine st a with
    | error e =>
      rw [hstep] at h
      exact Except.noConfusion h
    | ok st₁ =>
      rw [hstep] at h
      exact ih st₁ st' h (parseLine_inv st st₁ a hstep hinv)

theorem parse_inv (content : String) (idx : Index) (h : parse content = Except.ok idx) :
    IndexInv idx := by
  unfold parse at h
  cases hf : List.foldlM parseLine ((none, [])) (splitlines content) with
  | error e => rw [hf] at h; exact Except.noConfusion h
  | ok st =>
    rw [hf] at h
    have h2 : Except.ok st.2 = Except.ok idx := h
    injection h2 with h3
    subst h3
    exact foldl_parse_inv (splitlines content) ((none, [])) st hf indexInv_nil

theorem valLtDt_dt (a : DateTime) (now : DateTime) :
    valLtDt (some (Value.dt a)) now = Except.ok (dtLt a now) := rfl

theorem valGtDt_dt (a : DateTime) (now : DateTime) :
    valGtDt (some (Value.dt a)) now = Except.ok (dtLt now a) := rfl

theorem valGtDt_ok_true (v : Option Value) (d : DateTime)
    (h : valGtDt v d = Except.ok true) : ∃ b, v = some (Value.dt b) ∧ dtLt d b = true := by
  cases v with
  | none => exact Except.noConfusion h
  | some w =>
    cases w with
    | str s => exact Except.noConfusion h
    | dt b =>
      refine ⟨b, rfl, ?_⟩
      have h2 : Except.ok (dtLt d b) = Except.ok true := h
      injection h2

theorem findCurrent_eq_find (now : DateTime) (l : List Event)
    (h : ∀ e ∈ l, (∃ a, e.start = some (Value.dt a)) ∧
      (startLtB e now = true → ∃ b, e.end_ = some (Value.dt b))) :
    findCurrent now l = Except.ok (l.find? (fun e => currentMatch e now)) := by
  induction l with
  | nil => rfl
  | cons e rest ih =>
    obtain ⟨⟨a, ha⟩, hend⟩ := h e (List.mem_cons_self e rest)
    have hrest : ∀ e ∈ rest, (∃ a, e.start = some (Value.dt a)) ∧
        (startLtB e now = true → ∃ b, e.end_ = some (Value.dt b)) :=
      fun x hx => h x (List.mem_cons_of_mem e hx)
    have hs : startLtB e now = dtLt a now := by simp [startLtB, ha]
    by_cases hlt : dtLt a now = true
    · obtain ⟨b, hb⟩ := hend (hs.trans hlt)
      have he : endGtB e now = dtLt now b := by simp [endGtB, hb]
      by_cases hgt : dtLt now b = true
      · have hmatch : currentMatch e now = true := by
          simp [currentMatch, hs, he, hlt, hgt]
        simp [findCurrent, valLtDt, valGtDt, ha, hb, hlt, hgt, List.find?, hmatch]
      · have hmatch : currentMatch e now = false := by
          simp only [currentMatch, he, Bool.and_eq_false_iff]
          right
          exact Bool.not_eq_true (dtLt now b) |>.mp hgt ▸ by simp [hgt]
        simp [findCurrent, valLtDt, valGtDt, ha, hb, hlt, hgt, List.find?, hmatch, ih hrest]
    · have hmatch : currentMatch e now = false := by
        simp only [currentMatch, hs, Bool.and_eq_false_iff]
        left
        exact Bool.not_eq_true (dtLt a now) |>.mp hlt ▸ by simp [hlt]
      simp [findCurrent, valLtDt, ha, hlt, List.find?, hmatch, ih hrest]

theorem findNext_eq_find (now : DateTime) (l : List Event)
    (h : ∀ e ∈ l, (∃ a, e.start = some (Value.dt a)) ∧
      (startGtB e now = true → ∃ b, e.end_ = some (Value.dt b))) :
    findNext now l = Except.ok (l.find? (fun e => nextMatch e now)) := by
  induction l with
  | nil => rfl
  | cons e rest ih =>
    obtain ⟨⟨a, ha⟩, hend⟩ := h e (List.mem_cons_self e rest)
    have hrest : ∀ e ∈ rest, (∃ a, e.start = some (Value.dt a)) ∧
        (startGtB e now = true → ∃ b, e.end_ = some (Value.dt b)) :=
      fun x hx => h x (List.mem_cons_of_mem e hx)
    have hs : startGtB e now = dtLt now a := by simp [startGtB, ha]
    by_cases hlt : dtLt now a = true
    · obtain ⟨b, hb⟩ := hend (hs.trans hlt)
      have he : endGtB e now = dtLt now b := by simp [endGtB, hb]
      by_cases hgt : dtLt now b = true
      · have hmatch : nextMatch e now = true := by
          simp [nextMatch, hs, he, hlt, hgt]
        simp [findNext, valGtDt, ha, hb, hlt, hgt, List.find?, hmatch]
      · have hmatch : nextMatch e now = false := by
          simp only [nextMatch, he, Bool.and_eq_false_iff]
          right
          exact Bool.not_eq_true (dtLt now b) |>.mp hgt ▸ by simp [hgt]
        simp [findNext, valGtDt, ha, hb, hlt, hgt, List.find?, hmatch, ih hrest]
    · have hmatch : nextMatch e now = false := by
        simp only [nextMatch, hs, Bool.and_eq_false_iff]
        left
        exact Bool.not_eq_true (dtLt now a) |>.mp hlt ▸ by simp [hlt]
      simp [findNext, valGtDt, ha, hlt, List.find?, hmatch, ih hrest]

theorem findCurrent_some_end (now : DateTime) (l : List Event) (e : Event)
    (h : findCurrent now l = Except.ok (some e)) :
    ∃ b, e.end_ = some (Value.dt b) ∧ dtLt now b = true := by
  induction l with
  | nil => simp [findCurrent] at h
  | cons e₀ rest ih =>
    unfold findCurrent at h
    split at h
    · exact Except.noConfusion h
    · split at h
      · split at h
        · exact Except.noConfusion h
        · rename_i b₂ hg
          split at h
          · rename_i hb₂
            have h2 : Except.ok (some e₀) = Except.ok (some e) := h
            injection h2 with h3
            injection h3 with h4
            subst h4
            exact valGtDt_ok_true e₀.end_ now (hb₂ ▸ hg)
          · exact ih h
      · exact ih h

theorem unwrapAux_plain (xs : List String) (h : ∀ x ∈ xs, plainLine x = true) :
    unwrapAux xs = some (("", xs)) := by
  induction xs with
  | nil => rfl
  | cons x xs ih =>
    have hx := h x (List.mem_cons_self x xs)
    have hxs : ∀ y ∈ xs, plainLine y = true := fun y hy => h y (List.mem_cons_of_mem x hy)
    unfold unwrapAux
    rw [ih hxs]
    simp only [String.append_empty]
    unfold plainLine at hx
    cases hd : x.data with
    | nil =>
      rw [hd] at hx
      exact Bool.noConfusion hx
    | cons c rest =>
      rw [hd] at hx
      have hc : ¬c = ' ' := of_decide_eq_true hx
      simp [hc]

theorem unwrapAux_total (xs : List String) (h : ∀ x ∈ xs, ¬x = ("")) :
    ∃ p, unwrapAux xs = some p := by
  induction xs with
  | nil => exact ⟨(("", [])), rfl⟩
  | cons x xs ih =>
    obtain ⟨⟨s, ys⟩, hp⟩ := ih (fun y hy => h y (List.mem_cons_of_mem x hy))
    have hx : ¬x = ("") := h x (List.mem_cons_self x xs)
    unfold unwrapAux
    rw [hp]
    cases hxd : x.data with
    | nil =>
      apply absurd _ hx
      cases x with
      | mk d =>
        simp only [String.data] at hxd
        rw [hxd]
    | cons c r =>
      simp only [String.data_append]
      rw [hxd]
      simp only [List.cons_append]
      by_cases hc : c = ' '
      · exact ⟨((String.mk (r ++ s.data), ys)), by simp [hc]⟩
      · exact ⟨(("", (x ++ s) :: ys)), by simp [hc]⟩

theorem unwrapAux_cont (r : List Char) (xs : List String) (s : String) (ys : List String)
    (h : unwrapAux xs = some ((s, ys))) :
    unwrapAux (String.mk (' ' :: r) :: xs) = some ((String.mk (r ++ s.data), ys)) := by
  unfold unwrapAux
  rw [h]
  have hd : (String.mk (' ' :: r) ++ s).data = ' ' :: (r ++ s.data) := by
    rw [String.data_append]
    rfl
  simp only [hd]
  simp

theorem unwrap_plain (content : String)
    (h : ∀ l ∈ (splitlines content).tail, plainLine l = true) :
    unwrap content = some (String.intercalate (String.mk ['\n']) (splitlines content)) := by
  cases hs : splitlines content with
  | nil => unfold unwrap; rw [hs]; rfl
  | cons l₀ rest =>
    rw [hs] at h
    have h2 : ∀ l ∈ rest, plainLine l = true := by simpa using h
    unfold unwrap
    rw [hs]
    simp only [unwrapAux_plain rest h2]
    simp [String.append_empty]

theorem unwrap_total (content : String)
    (h : ∀ l ∈ (splitlines content).tail, ¬l = ("")) :
    ∃ res, unwrap content = some res := by
  cases hs : splitlines content with
  | nil =>
    refine ⟨(""), ?_⟩
    unfold unwrap
    rw [hs]
  | cons l₀ rest =>
    rw [hs] at h
    obtain ⟨⟨s, ys⟩, hp⟩ := unwrapAux_total rest (by simpa using h)
    refine ⟨String.intercalate (String.mk ['\n']) ((l₀ ++ s) :: ys), ?_⟩
    unfold unwrap
    rw [hs]
    simp only [hp]

/-- Claim C1, counterexample. The claim states that extraction fails if and
only if a closing boundary is reached with the start field unset, and that
this is the only fatal condition.  But on an input whose only lines are
BEGIN:VEVENT and a property line with a lowercase name and a timestamp
value, the guard regex matches while the extraction regex returns None,
so the code aborts (attribute access on None) although no END:VEVENT line
is present in the input at all. -/
theorem C1_counterexample :
    parse txtBadName = Except.error PyErr.attrGroupNone ∧
    ¬("END:VEVENT" ∈ splitlines txtBadName) := by
  exact ⟨rfl, by decide⟩

/-- Claim C1, amended: extraction does raise an error whenever the closing
boundary token is reached while the start field of the event in progress is
still unset (first conjunct: the loop body on END:VEVENT with an unset
start errors; second conjunct: the spec example of a block with no DTSTART),
but that is not the only fatal condition in the parse path (third conjunct:
a line whose value part matches the timestamp guard but whose property name
the extraction regex rejects aborts extraction without any closing
boundary). -/
theorem C1_theorem :
    (∀ (ev : Event) (idx : Index), ev.start = none →
      parseLine ((some ev, idx)) ("END:VEVENT") = Except.error PyErr.attrStartYear) ∧
    parse txtMissingStart = Except.error PyErr.attrStartYear ∧
    parse txtBadName = Except.error PyErr.attrGroupNone := by
  refine ⟨?_, rfl, rfl⟩
  intro ev idx h
  simp [parseLine, h]

/-- Witness for the hypotheses of the C1 theorem at a concrete event. -/
theorem C1_witness :
    parseLine ((some emptyEvent, [])) ("END:VEVENT") = Except.error PyErr.attrStartYear :=
  C1_theorem.1 emptyEvent [] rfl

/-- Claim C2, confirmed. Every event reachable from a successfully built
index sits under exactly the (year, month, day) triple given by the
components of its own datetime start (first conjunct); and concretely, the
event parsed from DTSTART:20170118T090000 is returned by events_on_day
exactly for dates whose components are 2017, 1, 18 and for no other date
(remaining conjuncts). -/
theorem C2_theorem :
    (∀ (content : String) (idx : Index), parse content = Except.ok idx →
      ∀ y m d e, e ∈ eventsAt idx y m d → startOK e y m d) ∧
    parse txtSingle9 = Except.ok idxSingle9 ∧
    (∀ date : DateTime, get_events_on_day idxSingle9 date =
      if date.year = 2017 ∧ date.month = 1 ∧ date.day = 18 then [evStart 9] else []) := by
  refine ⟨?_, rfl, ?_⟩
  · intro content idx h y m d e hmem
    exact parse_inv content idx h y m d e hmem
  · intro date
    by_cases h1 : date.year = 2017
    · by_cases h2 : date.month = 1
      · by_cases h3 : date.day = 18
        · simp [get_events_on_day, idxSingle9, lookupAL, h1, h2, h3]
        · simp [get_events_on_day, idxSingle9, lookupAL, h1, h2, h3, Ne.symm h3]
      · simp [get_events_on_day, idxSingle9, lookupAL, h1, h2, Ne.symm h2]
    · simp [get_events_on_day, idxSingle9, lookupAL, h1, Ne.symm h1]

/-- Witness for the C2 theorem: the bucketing invariant applied to the
concretely parsed index. -/
theorem C2_witness : startOK (evStart 9) 2017 1 18 :=
  C2_theorem.1 txtSingle9 idxSingle9 rfl 2017 1 18 (evStart 9) (by decide)

/-- Claim C3, counterexample. The claim states next_event returns none when
no event of the day qualifies.  On the index with one event starting at
09:00 with no end, probed at 08:00, no event satisfies the claimed
condition (start > now and end > now), yet next_event raises a TypeError
(comparison of None with a datetime) instead of returning none. -/
theorem C3_counterexample :
    parse txtSingle9 = Except.ok idxSingle9 ∧
    (∀ e ∈ get_events_on_day idxSingle9 (dtAt 8), nextMatch e (dtAt 8) = false) ∧
    get_next_event idxSingle9 (dtAt 8) = Except.error PyErr.typeErrorCmp := by
  exact ⟨rfl, by decide, rfl⟩

/-- Claim C3, amended: for every built index and time now, provided every
event of the day whose start is after now carries a datetime end,
next_event scans the day bucket in reverse stored order and returns the
first event with start > now and end > now, or none; when an event with
start > now lacks a datetime end, the scan raises a TypeError instead.
Consequently, for two qualifying events stored in textual order A then B on
the same day, next_event returns B, not A (concrete conjuncts). -/
theorem C3_theorem :
    (∀ (content : String) (idx : Index) (now : DateTime), parse content = Except.ok idx →
      (∀ e ∈ get_events_on_day idx now, startGtB e now = true →
        ∃ b, e.end_ = some (Value.dt b)) →
      get_next_event idx now =
        Except.ok ((get_events_on_day idx now).reverse.find? (fun e => nextMatch e now))) ∧
    parse txtAB = Except.ok idxAB ∧
    get_events_on_day idxAB (dtAt 8) = [evA, evB] ∧
    nextMatch evA (dtAt 8) = true ∧ nextMatch evB (dtAt 8) = true ∧
    get_next_event idxAB (dtAt 8) = Except.ok (some evB) ∧ ¬evB = evA := by
  refine ⟨?_, rfl, rfl, rfl, rfl, rfl, by decide⟩
  intro content idx now hparse hend
  unfold get_next_event
  apply findNext_eq_find
  intro e he
  have hmem : e ∈ get_events_on_day idx now := List.mem_reverse.mp he
  have hs : startOK e now.year now.month now.day :=
    parse_inv content idx hparse now.year now.month now.day e hmem
  obtain ⟨a, ha, _, _, _⟩ := hs
  exact ⟨⟨a, ha⟩, hend e hmem⟩

/-- Witness for the C3 theorem at the concrete two-event index. -/
theorem C3_witness :
    get_next_event idxAB (dtAt 8) =
      Except.ok ((get_events_on_day idxAB (dtAt 8)).reverse.find?
        (fun e => nextMatch e (dtAt 8))) :=
  C3_theorem.1 txtAB idxAB (dtAt 8) rfl
    (by
      intro e he hgt
      have he2 : e = evA ∨ e = evB := by
        have hm : e ∈ [evA, evB] := he
        simpa using hm
      rcases he2 with rfl | rfl
      · exact ⟨dtAt 10, rfl⟩
      · exact ⟨dtAt 12, rfl⟩)

/-- Claim C4, counterexample. The claim states current_event returns the
first event of the day with start < now < end.  On a day holding an
end-less event at 08:00 followed by an event 09:00-11:00, probed at 10:00,
the second event satisfies the condition and is the first to do so, yet
current_event raises a TypeError at the first event (None compared with a
datetime) instead of returning the matching event. -/
theorem C4_counterexample :
    parse txtC4 = Except.ok idxC4 ∧
    evStartEnd 9 11 ∈ get_events_on_day idxC4 (dtAt 10) ∧
    currentMatch (evStartEnd 9 11) (dtAt 10) = true ∧
    get_current_event idxC4 (dtAt 10) = Except.error PyErr.typeErrorCmp := by
  exact ⟨rfl, by decide, rfl, rfl⟩

/-- Claim C4, amended: for every built index and time now, provided every
event of the day whose start is before now carries a datetime end,
current_event returns the first event in stored order with
start < now < end, both bounds strict (or none); when an event with
start < now lacks a datetime end the scan raises a TypeError instead.  In
particular, at a time equal to the start of the only event nothing is
returned, and at a time strictly inside the event it is returned
(concrete conjuncts). -/
theorem C4_theorem :
    (∀ (content : String) (idx : Index) (now : DateTime), parse content = Except.ok idx →
      (∀ e ∈ get_events_on_day idx now, startLtB e now = true →
        ∃ b, e.end_ = some (Value.dt b)) →
      get_current_event idx now =
        Except.ok ((get_events_on_day idx now).find? (fun e => currentMatch e now))) ∧
    parse txt911 = Except.ok idx911 ∧
    get_current_event idx911 (dtAt 9) = Except.ok none ∧
    get_current_event idx911 (dtAt 10) = Except.ok (some (evStartEnd 9 11)) := by
  refine ⟨?_, rfl, rfl, rfl⟩
  intro content idx now hparse hend
  unfold get_current_event
  apply findCurrent_eq_find
  intro e he
  have hs : startOK e now.year now.month now.day :=
    parse_inv content idx hparse now.year now.month now.day e he
  obtain ⟨a, ha, _, _, _⟩ := hs
  exact ⟨⟨a, ha⟩, hend e he⟩

/-- Witness for the C4 theorem at the concrete one-event index. -/
theorem C4_witness :
    get_current_event idx911 (dtAt 10) =
      Except.ok ((get_events_on_day idx911 (dtAt 10)).find?
        (fun e => currentMatch e (dtAt 10))) :=
  C4_theorem.1 txt911 idx911 (dtAt 10) rfl
    (by
      intro e he hlt
      have he2 : e = evStartEnd 9 11 := by
        have hm : e ∈ [evStartEnd 9 11] := he
        simpa using hm
      rcases he2 with rfl
      exact ⟨dtAt 11, rfl⟩)

/-- Claim C5, counterexample. The claim states that an event with an absent
end can never be returned by current_event and that examining it raises no
error.  On the index with a single end-less event starting at 08:00, probed
at 09:00, the comparison of the absent end with the probe time raises a
TypeError rather than being treated as not-matching. -/
theorem C5_counterexample :
    parse txtSingle8 = Except.ok idxSingle8 ∧
    (evStart 8).end_ = none ∧
    evStart 8 ∈ get_events_on_day idxSingle8 (dtAt 9) ∧
    get_current_event idxSingle8 (dtAt 9) = Except.error PyErr.typeErrorCmp := by
  exact ⟨rfl, rfl, by decide, rfl⟩

/-- Claim C5, amended: an event whose end field is absent can never be
returned by current_event (every returned event carries a datetime end,
first conjunct); when such an event is examined with start not before now,
the short-circuit conjunction skips it without error (second conjunct); but
when its start is before now, the comparison against the absent end raises
a TypeError (third conjunct) instead of being treated as not-matching. -/
theorem C5_theorem :
    (∀ (idx : Index) (now : DateTime) (e : Event),
      get_current_event idx now = Except.ok (some e) →
        ∃ b, e.end_ = some (Value.dt b)) ∧
    (∀ (e : Event) (rest : List Event) (now a : DateTime),
      e.end_ = none → e.start = some (Value.dt a) → dtLt a now = false →
        findCurrent now (e :: rest) = findCurrent now rest) ∧
    (∀ (e : Event) (rest : List Event) (now a : DateTime),
      e.end_ = none → e.start = some (Value.dt a) → dtLt a now = true →
        findCurrent now (e :: rest) = Except.error PyErr.typeErrorCmp) := by
  refine ⟨?_, ?_, ?_⟩
  · intro idx now e h
    obtain ⟨b, hb, _⟩ := findCurrent_some_end now (get_events_on_day idx now) e h
    exact ⟨b, hb⟩
  · intro e rest now a hend hstart hlt
    simp [findCurrent, valLtDt, hstart, hlt]
  · intro e rest now a hend hstart hlt
    simp [findCurrent, valLtDt, valGtDt, hstart, hend, hlt]

/-- Witness for the C5 theorem: the error case at a concrete end-less
event whose start lies before the probe time. -/
theorem C5_witness :
    findCurrent (dtAt 9) (evStart 8 :: []) = Except.error PyErr.typeErrorCmp :=
  C5_theorem.2.2 (evStart 8) [] (dtAt 9) (dtAt 8) rfl rfl rfl

/-- Claim C6, counterexample. The claim states a boundary token with no
event in progress is silently ignored and is not an error; but an input
consisting of a single END:VEVENT line aborts extraction with an attribute
access on None. -/
theorem C6_counterexample :
    parse txtStray = Except.error PyErr.attrNoneStart := rfl

/-- Claim C6, amended: with no event in progress, a BEGIN:VEVENT line
starts a fresh blank event (leaving the index unchanged), while an
END:VEVENT line raises an error (attribute access on None) and aborts
extraction; neither is silently ignored. -/
theorem C6_theorem :
    ∀ idx : Index,
      parseLine ((none, idx)) ("BEGIN:VEVENT") = Except.ok ((some emptyEvent, idx)) ∧
      parseLine ((none, idx)) ("END:VEVENT") = Except.error PyErr.attrNoneStart :=
  fun idx => ⟨rfl, rfl⟩

/-- Claim C7, counterexample. The claim states a line beginning with a tab
is merged into its predecessor with the tab stripped; but unfolding the two
physical lines A and tab-B leaves the text unchanged (the code only
recognizes a space). -/
theorem C7_counterexample :
    unwrap txtTab = some txtTab ∧ ¬unwrap txtTab = some ("AB") := by
  exact ⟨rfl, by decide⟩

/-- Claim C7, amended: every physical line that begins with a single space
character is treated as a continuation of the immediately preceding
physical line: its first character is stripped, the remainder is appended
directly with no separator, and the line is removed (first conjunct, at the
level of the backward pass); a tab is not recognized as a continuation
marker (third conjunct); and SUMMARY:Foo followed by the line
space-B-a-r unfolds to the single logical line SUMMARY:FooBar (second
conjunct). -/
theorem C7_theorem :
    (∀ (r : List Char) (xs : List String) (s : String) (ys : List String),
      unwrapAux xs = some ((s, ys)) →
      unwrapAux (String.mk (' ' :: r) :: xs) = some ((String.mk (r ++ s.data), ys))) ∧
    unwrap ("SUMMARY:Foo\n Bar") = some ("SUMMARY:FooBar") ∧
    unwrap txtTab = some txtTab := by
  exact ⟨unwrapAux_cont, rfl, rfl⟩

/-- Witness for the C7 theorem: the continuation step applied at a concrete
line. -/
theorem C7_witness :
    unwrapAux (String.mk (' ' :: ['B', 'a', 'r']) :: []) =
      some ((String.mk (['B', 'a', 'r'] ++ ("").data), [])) :=
  C7_theorem.1 ['B', 'a', 'r'] [] ("") [] rfl

/-- Claim C8, counterexample. The claim states unfold returns any text with
no continuation lines unchanged up to newline normalization; but the text
A, empty line, B contains no continuation line (no line begins with a space
or tab) and unfold produces no result at all (the empty line is indexed at
its first character). -/
theorem C8_counterexample :
    unwrap txtEmptyMid = none ∧
    (splitlines txtEmptyMid).all (fun l => !continuationLine l) = true := by
  exact ⟨rfl, rfl⟩

/-- Claim C8, amended: for every input text in which every physical line
after the first is non-empty and does not begin with a space, unfold
returns the text unchanged up to newline normalization (first conjunct),
and the empty input produces the empty output with no error (second
conjunct). -/
theorem C8_theorem :
    (∀ content : String, (∀ l ∈ (splitlines content).tail, plainLine l = true) →
      unwrap content = some (String.intercalate (String.mk ['\n']) (splitlines content))) ∧
    unwrap ("") = some ("") :=
  ⟨unwrap_plain, rfl⟩

/-- Witness for the C8 theorem at a concrete continuation-free text. -/
theorem C8_witness :
    unwrap txtMissingStart =
      some (String.intercalate (String.mk ['\n']) (splitlines txtMissingStart)) :=
  C8_theorem.1 txtMissingStart (by decide)

/-- Claim C9, confirmed. While an event is in progress, a line matching
neither the timestamp-property guard nor the text-property pattern is
ignored: the loop body succeeds and leaves both the current event and the
index unchanged.  (The boundary tokens themselves match the text-property
pattern, so the hypotheses exclude them.) -/
theorem C9_theorem (ev : Event) (idx : Index) (line : String)
    (h1 : matchesTS line = false) (h2 : matchesText line = false) :
    parseLine ((some ev, idx)) line = Except.ok ((some ev, idx)) := by
  have hb : ¬line = "BEGIN:VEVENT" := by
    intro e
    rw [e] at h2
    exact absurd h2 (by decide)
  have he : ¬line = "END:VEVENT" := by
    intro e
    rw [e] at h2
    exact absurd h2 (by decide)
  simp [parseLine, hb, he, h1, h2]

/-- Witness for the C9 theorem at a concrete unmatched line. -/
theorem C9_witness :
    parseLine ((some emptyEvent, [])) ("this line matches no pattern") =
      Except.ok ((some emptyEvent, [])) :=
  C9_theorem emptyEvent [] ("this line matches no pattern") (by decide) (by decide)

/-- Claim C10, counterexample. The claim states unfold is total only on
inputs in which every physical line after the first is non-empty; but the
input A, empty line, space-X has an empty second physical line and unfold
still produces a result: the continuation line is merged into the empty
line before that line is examined, so its first character is defined. -/
theorem C10_counterexample :
    unwrap txtRescue = some ("A\nX") ∧
    splitlines txtRescue = ["A", "", " X"] := by
  exact ⟨rfl, rfl⟩

/-- Claim C10, amended: unfold examines the first character of each line as
it stands when examined (after continuation lines to its right have merged
into it) without checking non-emptiness.  It is total on every input whose
physical lines after the first are all non-empty (first conjunct), but not
only on those; for some inputs with an empty physical line after the first
(the two physical lines A and empty, last two conjuncts) the
first-character access fails and unfold produces no result. -/
theorem C10_theorem :
    (∀ content : String, (∀ l ∈ (splitlines content).tail, ¬l = ("")) →
      ∃ res, unwrap content = some res) ∧
    splitlines txtTwoEmpty = ["A", ""] ∧
    unwrap txtTwoEmpty = none :=
  ⟨unwrap_total, rfl, rfl⟩

/-- Witness for the C10 theorem at a concrete all-non-empty text. -/
theorem C10_witness : ∃ res, unwrap ("A\nB") = some res :=
  C10_theorem.1 ("A\nB") (by decide)
